import Mathlib

/-!
# TruthGuard — verification of the content-analysis orchestration core

Shallow embedding of the `VerificationSystem` class of `run.sh` (the
server-side orchestration core: agent selection, aggregation, session
bookkeeping, cleanup), of the `AgentSelector.determineActiveAgents`
function of `assets/js/main.js` (the browser-side selector), and of the
`POST /api/verify` handler of `telegram-bot/server.js`.

Conventions of the embedding:
* JavaScript strings are Lean `String` / `List Char`; `toLowerCase` is
  modelled on the ASCII range (all configured keywords and all inputs we
  evaluate are ASCII).
* JavaScript numbers holding confidences are modelled as `ℚ` (the code
  only adds, divides and compares them); `Math.round` is Mathlib's
  `round` (both round half-up).
* Epoch milliseconds are `ℤ`.
* The `Map` of active verifications is a function `String → Option
  SessionRecord` (JavaScript `Map` keys are unique, `set` overwrites,
  `delete` removes — all pointwise).
* Asynchrony is sequentialised: `Promise.all` over the selected agents
  becomes a left-to-right traversal, and each analyzer invocation is an
  injected oracle `Agent → Except String Response` standing for the
  settled outcome of `processAgent` (fields derived from wall-clock
  time — `processingTime`, `timestamp` — are modelled out).
-/

namespace TruthGuard

/-- ASCII model of JavaScript `String.prototype.toLowerCase` on one char. -/
def lowerChar (c : Char) : Char :=
  if 'A' ≤ c ∧ c ≤ 'Z' then Char.ofNat (c.toNat + 32) else c

/-- ASCII model of JavaScript `String.prototype.toLowerCase`. -/
def lowerStr (s : List Char) : List Char := s.map lowerChar

/-- JavaScript `String.prototype.includes`: the needle occurs as a
contiguous substring of the haystack. -/
def isSub (needle : List Char) : List Char → Bool
  | [] => needle.isEmpty
  | c :: cs => needle.isPrefixOf (c :: cs) || isSub needle cs

theorem isSub_correct (n : List Char) (h : List Char) :
    isSub n h = true ↔ n <:+: h := by
  induction h with
  | nil => simp [isSub, List.infix_nil, List.isEmpty_iff]
  | cons c cs ih =>
      simp [isSub, List.isPrefixOf_iff_prefix, ih, List.infix_cons_iff]

theorem isSub_of_infix_isSub (n₁ n₂ h : List Char) (h₁ : n₁ <:+: n₂)
    (h₂ : isSub n₂ h = true) : isSub n₁ h = true := by
  rw [isSub_correct] at h₂ ⊢
  exact h₁.trans h₂

theorem isSub_lowerStr (n h : List Char) (hn : lowerStr n = n)
    (hs : isSub n h = true) : isSub n (lowerStr h) = true := by
  rw [isSub_correct] at hs ⊢
  have := List.IsInfix.map lowerChar hs
  rwa [show List.map lowerChar n = lowerStr n from rfl, hn] at this

/-! ## Analyzer configuration (run.sh, `loadAgents`)

Only the fields the orchestration core reads are kept (`id`, `name`,
`keywords`); `description`, `emoji`, `processingTime` and `capabilities`
are presentation / latency-simulation data never consulted by selection,
aggregation or session bookkeeping. -/

structure Agent where
  id : String
  name : String
  keywords : List String
  deriving DecidableEq, Repr

def newsAgent : Agent :=
  { id := "news", name := "News Verification Agent",
    keywords := ["breaking", "news", "report", "journalist", "headline", "media", "press"] }

def factAgent : Agent :=
  { id := "fact", name := "Fact Verification Agent",
    keywords := ["study", "research", "scientist", "data", "percent", "statistics", "academic"] }

def scamAgent : Agent :=
  { id := "scam", name := "Scam Detection Agent",
    keywords := ["winner", "lottery", "money", "urgent", "fee", "prize", "cash", "inheritance"] }

def phishingAgent : Agent :=
  { id := "phishing", name := "Phishing Link Detector",
    keywords := ["click", "link", "login", "account", "verify", "security", "password", "update"] }

def imageAgent : Agent :=
  { id := "image", name := "Image Forgery Detector",
    keywords := ["photo", "image", "picture", "ai-generated", "deepfake", "manipulated"] }

def videoAgent : Agent :=
  { id := "video", name := "Video Forgery Detector",
    keywords := ["video", "deepfake", "ai-generated", "manipulated", "synthetic"] }

/-- `this.agents`, in declaration order. -/
def agents : List Agent :=
  [newsAgent, factAgent, scamAgent, phishingAgent, imageAgent, videoAgent]

/-- One agent's keyword test inside `selectAgents`:
`agent.keywords.some(keyword => contentLower.includes(keyword.toLowerCase()))`. -/
def hasKeyword (content : String) (a : Agent) : Bool :=
  a.keywords.any fun k => isSub (lowerStr k.toList) (lowerStr content.toList)

/-- `VerificationSystem.selectAgents` (run.sh lines 599–622): keyword
filter in declaration order, falling back to news + fact when nothing
matched.  The trailing `.filter(Boolean)` of the source only strips the
(never occurring) `undefined` results of the two `find` calls, which the
`filterMap id` here performs. -/
def selectAgents (content : String) : List Agent :=
  let selected := agents.filter (hasKeyword content)
  if selected.isEmpty then
    ([agents.find? (fun a => a.id == "news"),
      agents.find? (fun a => a.id == "fact")]).filterMap id
  else
    selected

/-! ## Browser-side selector (assets/js/main.js, `AgentSelector`) -/

def newsTrigger : String × List String :=
  ("news", ["news", "breaking", "report", "journalist", "media", "press", "headline", "story"])

def factTrigger : String × List String :=
  ("fact", ["research", "study", "scientist", "professor", "university", "published", "data",
            "statistics", "percent", "%", "climate", "medical", "health"])

def scamTrigger : String × List String :=
  ("scam", ["winner", "lottery", "prize", "money", "fee", "transfer", "bank", "account",
            "urgent", "limited time", "congratulations", "claim", "inheritance"])

def phishingTrigger : String × List String :=
  ("phishing", ["click", "link", "http", "www", "login", "password", "secure", "verify",
                "account", "suspended", "expired"])

def imageTrigger : String × List String :=
  ("image", ["image", "photo", "picture", "edited", "photoshop", "fake photo", "manipulated"])

def videoTrigger : String × List String :=
  ("video", ["video", "footage", "clip", "deepfake", "recorded", "filmed"])

/-- The `triggers` object of `determineActiveAgents`, in property order
(the order `Object.entries` iterates). -/
def triggers : List (String × List String) :=
  [newsTrigger, factTrigger, scamTrigger, phishingTrigger, imageTrigger, videoTrigger]

/-- JavaScript whitespace class `\s` (the characters that can occur in our
ASCII model). -/
def isJsSpace (c : Char) : Bool :=
  c = ' ' || c = '\t' || c = '\n' || c = '\r' || c = Char.ofNat 11 || c = Char.ofNat 12

/-- Does the regex `https?:\/\/[^\s]+` match starting at the head of `cs`? -/
def urlHere (cs : List Char) : Bool :=
  (("http://".toList).isPrefixOf cs &&
    (match cs.drop 7 with | [] => false | c :: _ => !isJsSpace c)) ||
  (("https://".toList).isPrefixOf cs &&
    (match cs.drop 8 with | [] => false | c :: _ => !isJsSpace c))

/-- `contentLower.match(/https?:\/\/[^\s]+/)` is non-null: the URL pattern
matches somewhere in the string. -/
def hasUrl : List Char → Bool
  | [] => false
  | c :: cs => urlHere (c :: cs) || hasUrl cs

/-- The body of the trigger loop of `determineActiveAgents`: add the agent
id when some keyword occurs in the lowered content and the id is not
already present. -/
def addTrigger (lower : List Char) (acc : List String) (t : String × List String) : List String :=
  if t.2.any (fun k => isSub k.toList lower) && !(acc.contains t.1) then
    acc ++ [t.1]
  else
    acc

/-- `AgentSelector.determineActiveAgents` (main.js lines 1289–1329):
URL special case first, then the keyword-trigger loop, then the
news + fact fallback, then the cap at 4. -/
def determineActiveAgents (content : String) : List String :=
  let contentLower := lowerStr content.toList
  let withUrl : List String := if hasUrl contentLower then ["phishing"] else []
  let matched := triggers.foldl (addTrigger contentLower) withUrl
  let withFallback := if matched.isEmpty then ["news", "fact"] else matched
  if withFallback.length > 4 then withFallback.take 4 else withFallback

/-! ### Structural lemmas about the trigger loop -/

theorem addTrigger_extends (lower : List Char) (acc : List String)
    (t : String × List String) : acc <+: addTrigger lower acc t := by
  unfold addTrigger
  split
  · exact List.prefix_append acc [t.1]
  · exact List.prefix_refl acc

theorem foldl_addTrigger_extends (lower : List Char) (ts : List (String × List String)) :
    ∀ acc, acc <+: ts.foldl (addTrigger lower) acc := by
  induction ts with
  | nil => intro acc; exact List.prefix_refl acc
  | cons t ts ih =>
      intro acc
      exact (addTrigger_extends lower acc t).trans (ih (addTrigger lower acc t))

theorem addTrigger_length (lower : List Char) (acc : List String)
    (t : String × List String) : (addTrigger lower acc t).length ≤ acc.length + 1 := by
  unfold addTrigger
  split
  · simp
  · omega

theorem foldl_addTrigger_length (lower : List Char) (ts : List (String × List String)) :
    ∀ acc, (ts.foldl (addTrigger lower) acc).length ≤ acc.length + ts.length := by
  induction ts with
  | nil => intro acc; simp
  | cons t ts ih =>
      intro acc
      have h1 := ih (addTrigger lower acc t)
      have h2 := addTrigger_length lower acc t
      simp only [List.foldl_cons, List.length_cons]
      omega

theorem addTrigger_subset (lower : List Char) (acc : List String)
    (t : String × List String) :
    ∀ x ∈ addTrigger lower acc t, x ∈ acc ∨ x = t.1 := by
  unfold addTrigger
  split
  · intro x hx
    rcases List.mem_append.mp hx with h | h
    · exact Or.inl h
    · exact Or.inr (List.mem_singleton.mp h)
  · intro x hx
    exact Or.inl hx

theorem foldl_addTrigger_subset (lower : List Char) (ts : List (String × List String)) :
    ∀ acc, ∀ x ∈ ts.foldl (addTrigger lower) acc, x ∈ acc ∨ x ∈ ts.map Prod.fst := by
  induction ts with
  | nil => intro acc x hx; exact Or.inl hx
  | cons t ts ih =>
      intro acc x hx
      rcases ih (addTrigger lower acc t) x hx with h | h
      · rcases addTrigger_subset lower acc t x h with h | h
        · exact Or.inl h
        · exact Or.inr (by rw [List.map_cons, h]; exact List.mem_cons_self _ _)
      · exact Or.inr (by rw [List.map_cons]; exact List.mem_cons_of_mem _ h)

theorem addTrigger_nodup (lower : List Char) (acc : List String)
    (t : String × List String) (h : acc.Nodup) : (addTrigger lower acc t).Nodup := by
  unfold addTrigger
  split
  next hcond =>
    have hnot : t.1 ∉ acc := by
      intro hmem
      have : acc.contains t.1 = true := List.elem_iff.mpr hmem
      rw [this] at hcond
      simp at hcond
    refine List.nodup_append.mpr ⟨h, List.nodup_singleton _, ?_⟩
    intro x hx hx1
    exact hnot (by rwa [List.mem_singleton.mp hx1] at hx)
  next => exact h

theorem foldl_addTrigger_nodup (lower : List Char) (ts : List (String × List String)) :
    ∀ acc, acc.Nodup → (ts.foldl (addTrigger lower) acc).Nodup := by
  induction ts with
  | nil => intro acc h; exact h
  | cons t ts ih =>
      intro acc h
      exact ih (addTrigger lower acc t) (addTrigger_nodup lower acc t h)

theorem addTrigger_mem_self (lower : List Char) (acc : List String)
    (t : String × List String) (hm : t.2.any (fun k => isSub k.toList lower) = true) :
    t.1 ∈ addTrigger lower acc t := by
  unfold addTrigger
  split
  next hcond => exact List.mem_append_right _ (by simp)
  next hcond =>
    have hc : acc.contains t.1 = true := by
      cases hc2 : acc.contains t.1
      · exact absurd (by rw [hm, hc2]; rfl) hcond
      · rfl
    exact List.elem_iff.mp hc

theorem foldl_addTrigger_mem (lower : List Char) (ts : List (String × List String))
    (t : String × List String) (ht : t ∈ ts)
    (hm : t.2.any (fun k => isSub k.toList lower) = true) :
    ∀ acc, t.1 ∈ ts.foldl (addTrigger lower) acc := by
  induction ts with
  | nil => cases ht
  | cons hd tl ih =>
      intro acc
      rcases List.mem_cons.mp ht with h | h
      · subst h
        have h1 : t.1 ∈ addTrigger lower acc t := addTrigger_mem_self lower acc t hm
        exact List.IsPrefix.mem h1 (foldl_addTrigger_extends lower tl _)
      · exact ih h _

theorem mem_take_of_extends {α : Type} (x : α) (l₁ l₂ : List α) (n : ℕ)
    (h : l₁ <+: l₂) (hx : x ∈ l₁.take n) : x ∈ l₂.take n := by
  obtain ⟨r, rfl⟩ := h
  rw [List.take_append_eq_append_take]
  exact List.mem_append_left _ hx

/-! ### Shape of the two selectors -/

theorem selectAgents_shape (content : String) :
    selectAgents content ≠ [] ∧ ((selectAgents content).map (·.id)).Nodup ∧
    ((selectAgents content).map (·.id)).Sublist (agents.map (·.id)) := by
  unfold selectAgents
  dsimp only
  split
  next hempty =>
    refine ⟨by decide, by decide, ?_⟩
    have hfb : (([agents.find? (fun a => a.id == "news"),
        agents.find? (fun a => a.id == "fact")]).filterMap id).map (·.id)
        = ["news", "fact"] := by decide
    rw [hfb]
    have hids : agents.map (·.id) = ["news", "fact"] ++ ["scam", "phishing", "image", "video"] := by
      decide
    rw [hids]
    exact (List.prefix_append _ _).sublist
  next hempty =>
    have hsub : ((agents.filter (hasKeyword content)).map (·.id)).Sublist (agents.map (·.id)) :=
      List.Sublist.map _ (List.filter_sublist agents)
    refine ⟨?_, hsub.nodup (by decide), hsub⟩
    intro h
    exact hempty (by rw [h]; rfl)

theorem determineActiveAgents_shape (content : String) :
    determineActiveAgents content ≠ [] ∧ (determineActiveAgents content).Nodup ∧
    (∀ x ∈ determineActiveAgents content, x ∈ agents.map (·.id)) ∧
    (determineActiveAgents content).length ≤ 4 := by
  have key : ∀ wf : List String, wf ≠ [] → wf.Nodup → (∀ x ∈ wf, x ∈ agents.map (·.id)) →
      (if wf.length > 4 then wf.take 4 else wf) ≠ [] ∧
      (if wf.length > 4 then wf.take 4 else wf).Nodup ∧
      (∀ x ∈ (if wf.length > 4 then wf.take 4 else wf), x ∈ agents.map (·.id)) ∧
      (if wf.length > 4 then wf.take 4 else wf).length ≤ 4 := by
    intro wf hne hnd hsub
    split
    next hgt =>
      refine ⟨?_, (List.take_sublist _ _).nodup hnd,
        fun x hx => hsub x (List.take_subset _ _ hx), ?_⟩
      · intro h
        have hlen := congrArg List.length h
        rw [List.length_take] at hlen
        simp only [List.length_nil] at hlen
        omega
      · rw [List.length_take]
        omega
    next hgt => exact ⟨hne, hnd, hsub, by omega⟩
  have fb : ∀ m : List String, m.Nodup → (∀ x ∈ m, x ∈ agents.map (·.id)) →
      (if m.isEmpty then ["news", "fact"] else m) ≠ [] ∧
      (if m.isEmpty then ["news", "fact"] else m).Nodup ∧
      (∀ x ∈ (if m.isEmpty then ["news", "fact"] else m), x ∈ agents.map (·.id)) := by
    intro m hnd hsub
    split
    next =>
      refine ⟨by decide, by decide, ?_⟩
      intro x hx
      rcases List.mem_cons.mp hx with h | h
      · rw [h]; decide
      · rw [List.mem_singleton.mp h]; decide
    next hm => exact ⟨fun h => hm (by rw [h]; rfl), hnd, hsub⟩
  have ha0nd : (if hasUrl (lowerStr content.toList) then ["phishing"] else ([] : List String)).Nodup := by
    split <;> simp
  have ha0sub : ∀ x ∈ (if hasUrl (lowerStr content.toList) then ["phishing"] else ([] : List String)),
      x ∈ agents.map (·.id) := by
    split
    · intro x hx
      rw [List.mem_singleton.mp hx]
      decide
    · intro x hx
      cases hx
  have hmnd := foldl_addTrigger_nodup (lowerStr content.toList) triggers _ ha0nd
  have hmsub : ∀ x ∈ triggers.foldl (addTrigger (lowerStr content.toList))
      (if hasUrl (lowerStr content.toList) then ["phishing"] else []),
      x ∈ agents.map (·.id) := by
    intro x hx
    rcases foldl_addTrigger_subset (lowerStr content.toList) triggers _ x hx with h | h
    · exact ha0sub x h
    · rwa [show triggers.map Prod.fst = agents.map (·.id) from by decide] at h
  have hfb := fb _ hmnd hmsub
  unfold determineActiveAgents
  dsimp only
  exact key _ hfb.1 hfb.2.1 hfb.2.2

/-- C2.  For every content string, agent selection returns a non-empty,
duplicate-free subset of the configured analyzer ids.  The server-side
`selectAgents` preserves declaration order but has no size cap; the
browser-side `determineActiveAgents` caps the result at 4. -/
theorem agent_selection_wellformed (content : String) :
    (selectAgents content ≠ [] ∧ ((selectAgents content).map (·.id)).Nodup ∧
      ((selectAgents content).map (·.id)).Sublist (agents.map (·.id))) ∧
    (determineActiveAgents content ≠ [] ∧ (determineActiveAgents content).Nodup ∧
      (∀ x ∈ determineActiveAgents content, x ∈ agents.map (·.id)) ∧
      (determineActiveAgents content).length ≤ 4) :=
  ⟨selectAgents_shape content, determineActiveAgents_shape content⟩

/-- C2, counterexample.  The server-side `selectAgents` has no cap at 4:
content hitting a keyword of every agent selects all six analyzers. -/
theorem selectAgents_exceeds_four :
    ¬ ((selectAgents "breaking study winner click photo video").length ≤ 4) := by
  decide

/-! ### URL handling in selection -/

/-- C3.  In the browser-side `AgentSelector.determineActiveAgents`, every
content containing `http://` or `https://` selects the phishing analyzer:
either the URL regex matches and `"phishing"` is pushed first, or the
substring `"http"` fires the phishing keyword trigger at a position that
survives the cap at 4. -/
theorem determineActiveAgents_url_includes_phishing (content : String)
    (h : isSub "http://".toList content.toList = true ∨
         isSub "https://".toList content.toList = true) :
    "phishing" ∈ determineActiveAgents content := by
  have hhttp : isSub "http".toList (lowerStr content.toList) = true := by
    rcases h with h | h
    · have h1 : isSub "http://".toList (lowerStr content.toList) = true :=
        isSub_lowerStr _ _ (by decide) h
      exact isSub_of_infix_isSub _ _ _ ((isSub_correct _ _).mp (by decide)) h1
    · have h1 : isSub "https://".toList (lowerStr content.toList) = true :=
        isSub_lowerStr _ _ (by decide) h
      exact isSub_of_infix_isSub _ _ _ ((isSub_correct _ _).mp (by decide)) h1
  have hmatch : phishingTrigger.2.any
      (fun k => isSub k.toList (lowerStr content.toList)) = true :=
    List.any_eq_true.mpr ⟨"http", by decide, hhttp⟩
  -- a prefix of the matched list of length ≤ 4 containing "phishing"
  have main : ∀ a0 : List String,
      (hasUrl (lowerStr content.toList) = true → a0 = ["phishing"]) →
      (hasUrl (lowerStr content.toList) = false → a0 = []) →
      "phishing" ∈ (triggers.foldl (addTrigger (lowerStr content.toList)) a0).take 4 := by
    intro a0 hT hF
    cases hu : hasUrl (lowerStr content.toList)
    · -- no regex match: the keyword hit places "phishing" at index ≤ 3
      rw [hF hu]
      have hdec : triggers
          = [newsTrigger, factTrigger, scamTrigger] ++ [phishingTrigger]
            ++ [imageTrigger, videoTrigger] := rfl
      rw [hdec, List.foldl_append, List.foldl_append]
      set lower := lowerStr content.toList
      set acc3 := List.foldl (addTrigger lower) [] [newsTrigger, factTrigger, scamTrigger]
        with hacc3
      have hl3 : acc3.length ≤ 3 := by
        have := foldl_addTrigger_length lower [newsTrigger, factTrigger, scamTrigger] []
        simpa [hacc3] using this
      have hstep : List.foldl (addTrigger lower) acc3 [phishingTrigger]
          = addTrigger lower acc3 phishingTrigger := rfl
      rw [hstep]
      have hl4 : (addTrigger lower acc3 phishingTrigger).length ≤ 4 := by
        have := addTrigger_length lower acc3 phishingTrigger
        omega
      have hmem : "phishing" ∈ addTrigger lower acc3 phishingTrigger :=
        addTrigger_mem_self lower acc3 phishingTrigger hmatch
      refine mem_take_of_extends _ _ _ 4 (foldl_addTrigger_extends lower _ _) ?_
      rwa [List.take_of_length_le hl4]
    · -- regex matched: "phishing" is the head of the accumulator
      rw [hT hu]
      refine mem_take_of_extends _ _ _ 4
        (foldl_addTrigger_extends (lowerStr content.toList) triggers _) ?_
      decide
  unfold determineActiveAgents
  dsimp only
  cases hu : hasUrl (lowerStr content.toList)
  · simp only [Bool.false_eq_true, if_false]
    have hmem4 : "phishing" ∈ (triggers.foldl (addTrigger (lowerStr content.toList)) []).take 4 :=
      main [] (fun hh => absurd (hu.symm.trans hh) (by decide)) (fun _ => rfl)
    have hmemm := List.take_subset 4 _ hmem4
    cases he : (triggers.foldl (addTrigger (lowerStr content.toList)) []).isEmpty
    · simp only [Bool.false_eq_true, if_false]
      split
      next => exact hmem4
      next => exact hmemm
    · rw [List.isEmpty_iff.mp he] at hmemm
      cases hmemm
  · simp only [if_true]
    have hmem4 : "phishing" ∈
        (triggers.foldl (addTrigger (lowerStr content.toList)) ["phishing"]).take 4 :=
      main ["phishing"] (fun _ => rfl) (fun hh => absurd (hu.symm.trans hh) (by decide))
    have hmemm := List.take_subset 4 _ hmem4
    cases he : (triggers.foldl (addTrigger (lowerStr content.toList)) ["phishing"]).isEmpty
    · simp only [Bool.false_eq_true, if_false]
      split
      next => exact hmem4
      next => exact hmemm
    · rw [List.isEmpty_iff.mp he] at hmemm
      cases hmemm

/-- C3, counterexample.  The server-side `selectAgents` has no URL rule:
content consisting of a bare `https://` URL matches no keyword of any
agent, so selection falls back to news + fact and omits phishing. -/
theorem selectAgents_url_without_phishing :
    isSub "https://".toList "check https://a".toList = true ∧
    "phishing" ∉ (selectAgents "check https://a").map (·.id) := by
  decide

/-- C3, witness for the amended theorem at a concrete URL-bearing input. -/
theorem determineActiveAgents_url_includes_phishing_witness :
    (isSub "http://".toList "see http://x".toList = true ∨
     isSub "https://".toList "see http://x".toList = true) ∧
    "phishing" ∈ determineActiveAgents "see http://x" :=
  ⟨Or.inl (by decide),
   determineActiveAgents_url_includes_phishing "see http://x" (Or.inl (by decide))⟩

/-! ## Aggregator (run.sh, `calculateOverallResult` lines 808–830,
`generateSummary`, `calculateRiskLevel`) -/

/-- One analyzer's settled output as `processAgent` returns it.  The
wall-clock fields `processingTime` and `timestamp` are modelled out; the
`emoji` field is presentation only and never read downstream. -/
structure AgentResult where
  agent : String
  name : String
  verdict : String
  confidence : ℚ
  evidence : List String
  recommendations : List String
  deriving DecidableEq, Repr

structure OverallResult where
  verdict : String
  confidence : ℤ
  summary : String
  riskLevel : String
  deriving DecidableEq, Repr

/-- `agentResults.reduce((sum, r) => sum + r.confidence, 0) / agentResults.length`. -/
def avgConfidence (agentResults : List AgentResult) : ℚ :=
  (agentResults.foldl (fun sum r => sum + r.confidence) 0) / (agentResults.length : ℚ)

/-- The verdict if-chain of `calculateOverallResult`, starting from the
initialisation `overallVerdict = 'UNVERIFIED'`. -/
def overallVerdict (verdicts : List String) (avg : ℚ) : String :=
  if verdicts.contains "MALICIOUS" = true ∨ verdicts.contains "SCAM" = true then "DANGEROUS"
  else if verdicts.contains "FALSE" = true then "FALSE"
  else if verdicts.contains "TRUE" = true ∧ avg > 80 then "VERIFIED"
  else if verdicts.contains "SUSPICIOUS" = true then "SUSPICIOUS"
  else "UNVERIFIED"

/-- `generateSummary` (emoji prefixes elided). -/
def generateSummary (verdict : String) (agentCount : ℕ) : String :=
  if verdict = "DANGEROUS" then
    "DANGEROUS: " ++ toString agentCount ++ " agents detected significant threats. Avoid interaction."
  else if verdict = "FALSE" then
    "FALSE: Content appears to be misinformation based on " ++ toString agentCount ++ " agent analysis."
  else if verdict = "VERIFIED" then
    "VERIFIED: Content appears legitimate according to " ++ toString agentCount ++ " agents."
  else if verdict = "SUSPICIOUS" then
    "SUSPICIOUS: Some concerning patterns detected. Exercise caution."
  else
    "UNVERIFIED: Unable to determine authenticity. " ++ toString agentCount ++ " agents need more information."

def calculateRiskLevel (verdict : String) (confidence : ℚ) : String :=
  if verdict = "DANGEROUS" then "CRITICAL"
  else if verdict = "FALSE" ∧ confidence > 90 then "HIGH"
  else if verdict = "SUSPICIOUS" then "MEDIUM"
  else if verdict = "UNVERIFIED" then "LOW"
  else "MINIMAL"

/-- `VerificationSystem.calculateOverallResult`.  JavaScript `Math.round`
rounds half up, exactly like Mathlib's `round`. -/
def calculateOverallResult (agentResults : List AgentResult) : OverallResult :=
  let verdicts := agentResults.map (·.verdict)
  let avg := avgConfidence agentResults
  { verdict := overallVerdict verdicts avg,
    confidence := round avg,
    summary := generateSummary (overallVerdict verdicts avg) agentResults.length,
    riskLevel := calculateRiskLevel (overallVerdict verdicts avg) avg }

theorem foldl_confidence_eq_sum (agentResults : List AgentResult) :
    ∀ a : ℚ, agentResults.foldl (fun sum r => sum + r.confidence) a
      = a + (agentResults.map (·.confidence)).sum := by
  induction agentResults with
  | nil => intro a; simp
  | cons r rs ih =>
      intro a
      rw [List.foldl_cons, ih (a + r.confidence), List.map_cons, List.sum_cons]
      ring

theorem avgConfidence_eq (agentResults : List AgentResult) :
    avgConfidence agentResults
      = (agentResults.map (·.confidence)).sum / (agentResults.length : ℚ) := by
  unfold avgConfidence
  rw [foldl_confidence_eq_sum agentResults 0, zero_add]

theorem contains_iff (l : List String) (s : String) : l.contains s = true ↔ s ∈ l :=
  List.elem_iff

/-- C5.  The overall verdict is derived by first-match-wins precedence:
MALICIOUS/SCAM ⇒ DANGEROUS, else FALSE ⇒ FALSE, else TRUE with mean
confidence above 80 ⇒ VERIFIED, else SUSPICIOUS ⇒ SUSPICIOUS, else
UNVERIFIED.  Being a function of the result set, the derivation is total
and deterministic: exactly one verdict results. -/
theorem calculateOverallResult_verdict_precedence (results : List AgentResult)
    (_hne : results ≠ []) :
    (("MALICIOUS" ∈ results.map (·.verdict) ∨ "SCAM" ∈ results.map (·.verdict)) →
      (calculateOverallResult results).verdict = "DANGEROUS") ∧
    (¬("MALICIOUS" ∈ results.map (·.verdict) ∨ "SCAM" ∈ results.map (·.verdict)) →
      "FALSE" ∈ results.map (·.verdict) →
      (calculateOverallResult results).verdict = "FALSE") ∧
    (¬("MALICIOUS" ∈ results.map (·.verdict) ∨ "SCAM" ∈ results.map (·.verdict)) →
      "FALSE" ∉ results.map (·.verdict) →
      ("TRUE" ∈ results.map (·.verdict) ∧ avgConfidence results > 80) →
      (calculateOverallResult results).verdict = "VERIFIED") ∧
    (¬("MALICIOUS" ∈ results.map (·.verdict) ∨ "SCAM" ∈ results.map (·.verdict)) →
      "FALSE" ∉ results.map (·.verdict) →
      ¬("TRUE" ∈ results.map (·.verdict) ∧ avgConfidence results > 80) →
      "SUSPICIOUS" ∈ results.map (·.verdict) →
      (calculateOverallResult results).verdict = "SUSPICIOUS") ∧
    (¬("MALICIOUS" ∈ results.map (·.verdict) ∨ "SCAM" ∈ results.map (·.verdict)) →
      "FALSE" ∉ results.map (·.verdict) →
      ¬("TRUE" ∈ results.map (·.verdict) ∧ avgConfidence results > 80) →
      "SUSPICIOUS" ∉ results.map (·.verdict) →
      (calculateOverallResult results).verdict = "UNVERIFIED") := by
  have hv : (calculateOverallResult results).verdict
      = overallVerdict (results.map (·.verdict)) (avgConfidence results) := rfl
  rw [hv]
  unfold overallVerdict
  simp only [contains_iff]
  refine ⟨?_, ?_, ?_, ?_, ?_⟩
  · intro h1
    rw [if_pos h1]
  · intro h1 h2
    rw [if_neg h1, if_pos h2]
  · intro h1 h2 h3
    rw [if_neg h1, if_neg h2, if_pos h3]
  · intro h1 h2 h3 h4
    rw [if_neg h1, if_neg h2, if_neg h3, if_pos h4]
  · intro h1 h2 h3 h4
    rw [if_neg h1, if_neg h2, if_neg h3, if_neg h4]

/-- A canned SCAM analyzer result (matching the advance-fee-fraud scenario
response of the scam agent). -/
def resScam : AgentResult :=
  { agent := "scam", name := "Scam Detection Agent", verdict := "SCAM", confidence := 99,
    evidence := ["Classic 419 scam pattern, no legitimate lottery requires upfront payment"],
    recommendations := ["Report to relevant authorities"] }

/-- C5, witness: a singleton SCAM result hits the DANGEROUS branch. -/
theorem calculateOverallResult_verdict_precedence_witness :
    ([resScam] ≠ ([] : List AgentResult)) ∧
    (calculateOverallResult [resScam]).verdict = "DANGEROUS" :=
  ⟨by decide,
   (calculateOverallResult_verdict_precedence [resScam] (by decide)).1 (Or.inr (by decide))⟩

/-- C6.  For non-empty result sets with confidences in [0,100], the
aggregated confidence is the mean rounded to the nearest integer and lies
in [0,100]. -/
theorem calculateOverallResult_confidence_round_mean (results : List AgentResult)
    (hne : results ≠ [])
    (hb : ∀ r ∈ results, 0 ≤ r.confidence ∧ r.confidence ≤ 100) :
    (calculateOverallResult results).confidence
      = round ((results.map (·.confidence)).sum / (results.length : ℚ)) ∧
    0 ≤ (calculateOverallResult results).confidence ∧
    (calculateOverallResult results).confidence ≤ 100 := by
  have hconf : (calculateOverallResult results).confidence = round (avgConfidence results) := rfl
  have havg := avgConfidence_eq results
  have hn : (0 : ℚ) < (results.length : ℚ) := by
    have : 0 < results.length := List.length_pos.mpr hne
    exact_mod_cast this
  have hsum0 : 0 ≤ (results.map (·.confidence)).sum := by
    apply List.sum_nonneg
    intro x hx
    obtain ⟨r, hr, rfl⟩ := List.mem_map.mp hx
    exact (hb r hr).1
  have hsum100 : (results.map (·.confidence)).sum ≤ 100 * (results.length : ℚ) := by
    have h := List.sum_le_card_nsmul (results.map (·.confidence)) 100 ?_
    · rw [List.length_map, nsmul_eq_mul] at h
      calc (results.map (·.confidence)).sum ≤ (results.length : ℚ) * 100 := h
        _ = 100 * (results.length : ℚ) := by ring
    · intro x hx
      obtain ⟨r, hr, rfl⟩ := List.mem_map.mp hx
      exact (hb r hr).2
  have h0 : 0 ≤ avgConfidence results := by
    rw [havg]
    exact div_nonneg hsum0 (le_of_lt hn)
  have h100 : avgConfidence results ≤ 100 := by
    rw [havg, div_le_iff₀ hn]
    exact hsum100
  refine ⟨by rw [hconf, havg], ?_, ?_⟩
  · rw [hconf, round_eq]
    exact Int.le_floor.mpr (by push_cast; linarith)
  · rw [hconf, round_eq]
    have h1 : avgConfidence results + 1/2 ≤ (100:ℚ) + 1/2 := by linarith
    have h2 := Int.floor_le_floor h1
    have h3 : ⌊(100:ℚ) + 1/2⌋ = 100 := by
      rw [Int.floor_eq_iff]
      norm_num
    omega

/-- C6, witness at the singleton SCAM result (confidence 99). -/
theorem calculateOverallResult_confidence_round_mean_witness :
    (calculateOverallResult [resScam]).confidence
      = round ((([resScam] : List AgentResult).map (·.confidence)).sum
          / ((([resScam] : List AgentResult).length : ℕ) : ℚ)) ∧
    0 ≤ (calculateOverallResult [resScam]).confidence ∧
    (calculateOverallResult [resScam]).confidence ≤ 100 :=
  calculateOverallResult_confidence_round_mean [resScam] (by decide)
    (by
      intro r hr
      rw [List.mem_singleton.mp hr]
      exact ⟨by decide, by decide⟩)

/-! ## Orchestrator and session store (run.sh, `verifyContent` lines
627–686, `cleanupOldVerifications` lines 909–917, getters) -/

inductive SessionStatus where
  | processing
  | completed
  | failed
  deriving DecidableEq, Repr

/-- The verdict/confidence/evidence/recommendations payload produced by
`generateAgentResponse` inside `processAgent`. -/
structure Response where
  verdict : String
  confidence : ℚ
  evidence : List String
  recommendations : List String
  deriving DecidableEq, Repr

/-- The `result` object `verifyContent` builds on success
(`processingTime` and `timestamp`, derived from wall-clock time, are
modelled out). -/
structure VerifResult where
  verificationId : String
  content : String
  agents : List Agent
  agentResults : List AgentResult
  overallResult : OverallResult
  deriving DecidableEq, Repr

/-- One entry of `this.activeVerifications`. -/
structure SessionRecord where
  userId : String
  content : String
  agents : List Agent
  startTime : ℤ
  status : SessionStatus
  result : Option VerifResult
  error : Option String
  deriving DecidableEq, Repr

/-- The mutable state of a `VerificationSystem` instance. -/
structure SysState where
  activeVerifications : String → Option SessionRecord
  totalVerifications : ℕ

/-- `this.activeVerifications.set(id, v)`. -/
def setSession (m : String → Option SessionRecord) (k : String) (v : SessionRecord) :
    String → Option SessionRecord :=
  fun q => if q = k then some v else m q

/-- `processAgent`'s result record for one agent, built from the settled
response. -/
def mkAgentResult (a : Agent) (r : Response) : AgentResult :=
  { agent := a.id, name := a.name, verdict := r.verdict, confidence := r.confidence,
    evidence := r.evidence, recommendations := r.recommendations }

/-- `Promise.all(selectedAgents.map(agent => this.processAgent(agent, content)))`:
all agents settle; the first rejection (here: in list order) rejects the
whole batch. -/
def collectResults (resp : Agent → Except String Response) :
    List Agent → Except String (List AgentResult)
  | [] => Except.ok []
  | a :: rest =>
      match resp a with
      | Except.error e => Except.error e
      | Except.ok r =>
          match collectResults resp rest with
          | Except.error e => Except.error e
          | Except.ok rs => Except.ok (mkAgentResult a r :: rs)

/-- `VerificationSystem.verifyContent`.  `resp` is the injected outcome of
each analyzer invocation, `now` the clock at entry, `freshId` the value
`uuidv4()` would produce when no `verificationId` is passed. -/
def verifyContent (st : SysState) (resp : Agent → Except String Response) (now : ℤ)
    (content userId : String) (verificationId : Option String) (freshId : String) :
    Except String VerifResult × SysState :=
  let id := verificationId.getD freshId
  let selectedAgents := selectAgents content
  let pending : SessionRecord :=
    { userId := userId, content := content, agents := selectedAgents, startTime := now,
      status := SessionStatus.processing, result := none, error := none }
  let st1 : SysState :=
    { activeVerifications := setSession st.activeVerifications id pending,
      totalVerifications := st.totalVerifications + 1 }
  match collectResults resp selectedAgents with
  | Except.ok agentResults =>
      let result : VerifResult :=
        { verificationId := id, content := content, agents := selectedAgents,
          agentResults := agentResults,
          overallResult := calculateOverallResult agentResults }
      let doneRec : SessionRecord :=
        { pending with status := SessionStatus.completed, result := some result }
      (Except.ok result,
       { st1 with activeVerifications := setSession st1.activeVerifications id doneRec })
  | Except.error e =>
      let failedRec : SessionRecord :=
        { pending with status := SessionStatus.failed, error := some e }
      (Except.error e,
       { st1 with activeVerifications := setSession st1.activeVerifications id failedRec })

/-- `VerificationSystem.getTotalVerifications`. -/
def getTotalVerifications (st : SysState) : ℕ := st.totalVerifications

/-- `VerificationSystem.getVerification`. -/
def getVerification (st : SysState) (id : String) : Option SessionRecord :=
  st.activeVerifications id

/-- `VerificationSystem.cleanupOldVerifications`: delete every entry whose
`startTime` is before `now - 60 * 60 * 1000`. -/
def cleanupOldVerifications (st : SysState) (now : ℤ) : SysState :=
  { activeVerifications := fun id =>
      match st.activeVerifications id with
      | none => none
      | some v => if v.startTime < now - 60 * 60 * 1000 then none else some v,
    totalVerifications := st.totalVerifications }

/-! ## The `POST /api/verify` handler (telegram-bot/server.js lines 193–225) -/

/-- A JSON value arriving in the request body's `content` field: either a
string or some non-string value. -/
inductive JsValue where
  | str (s : String)
  | nonString
  deriving DecidableEq, Repr

inductive ApiResponse where
  | ok (verificationId : String) (result : VerifResult)
  | badRequest (msg : String)
  | serverError (msg : String)
  deriving DecidableEq, Repr

/-- The `/api/verify` handler.  `validate` is the injected
`securityUtils.validateContent`; `content` is the request body's `content`
field (`none` when absent).  `!content || typeof content !== 'string'`
rejects every non-string and the empty string. -/
def apiVerify (st : SysState) (validate : String → Bool)
    (resp : Agent → Except String Response) (now : ℤ) (content : Option JsValue)
    (userId : String) (sessionId : Option String) (freshId : String) :
    ApiResponse × SysState :=
  match content with
  | some (JsValue.str s) =>
      if s = "" then
        (ApiResponse.badRequest "Content is required and must be a string", st)
      else if validate s = false then
        (ApiResponse.badRequest "Content contains potentially harmful elements", st)
      else
        let vid := sessionId.getD freshId
        match verifyContent st resp now s userId (some vid) freshId with
        | (Except.ok r, st2) => (ApiResponse.ok vid r, st2)
        | (Except.error e, st2) => (ApiResponse.serverError e, st2)
  | some JsValue.nonString =>
      (ApiResponse.badRequest "Content is required and must be a string", st)
  | none =>
      (ApiResponse.badRequest "Content is required and must be a string", st)

/-! ### Lemmas about the embedding's building blocks -/

theorem setSession_get (m : String → Option SessionRecord) (k : String) (v : SessionRecord) :
    setSession m k v k = some v := by
  simp [setSession]

theorem collectResults_ok_ids (resp : Agent → Except String Response) (l : List Agent)
    (rs : List AgentResult) (h : collectResults resp l = Except.ok rs) :
    rs.map (·.agent) = l.map (·.id) := by
  induction l generalizing rs with
  | nil =>
      unfold collectResults at h
      cases h
      rfl
  | cons a rest ih =>
      unfold collectResults at h
      cases ha : resp a with
      | error e => rw [ha] at h; cases h
      | ok r =>
          rw [ha] at h
          cases hrest : collectResults resp rest with
          | error e => rw [hrest] at h; cases h
          | ok rs2 =>
              rw [hrest] at h
              cases h
              rw [List.map_cons, List.map_cons, ih rs2 hrest]
              rfl

theorem collectResults_error_of_mem (resp : Agent → Except String Response) (l : List Agent)
    (a : Agent) (e : String) (ha : a ∈ l) (he : resp a = Except.error e) :
    ∃ e2, collectResults resp l = Except.error e2 := by
  induction l with
  | nil => cases ha
  | cons hd tl ih =>
      rcases List.mem_cons.mp ha with h | h
      · subst h
        exact ⟨e, by unfold collectResults; rw [he]⟩
      · cases hhd : resp hd with
        | error e3 => exact ⟨e3, by unfold collectResults; rw [hhd]⟩
        | ok r =>
            obtain ⟨e2, h2⟩ := ih h
            exact ⟨e2, by unfold collectResults; rw [hhd, h2]⟩

/-! ### Concrete fixtures used by the closed theorems -/

def emptyState : SysState :=
  { activeVerifications := fun _ => none, totalVerifications := 0 }

/-- The default heuristic payload of `getHeuristicResponse` with the
random addend fixed at 0. -/
def defaultResponse : Response :=
  { verdict := "UNVERIFIED", confidence := 50,
    evidence := ["Insufficient information for definitive analysis"],
    recommendations := ["Seek additional sources", "Apply critical thinking"] }

/-- An analyzer oracle where every invocation settles successfully. -/
def respOk : Agent → Except String Response := fun _ => Except.ok defaultResponse

/-- An analyzer oracle where the news analyzer raises. -/
def respFail : Agent → Except String Response := fun a =>
  if a.id = "news" then Except.error "boom" else Except.ok defaultResponse

/-- A state holding the completed session "s1", produced by an earlier
successful `verifyContent` call. -/
def preState : SysState :=
  (verifyContent emptyState respOk 0 "original" "u1" (some "s1") "x").2

/-! ### C10: the total-verifications counter -/

/-- C10.  Every `verifyContent` call increments the process-wide counter
by exactly one, whatever the analyzer outcomes (the increment precedes the
analyzer runs, so failing verifications are counted too); the only other
state-mutating operation, the cleanup sweep, leaves the counter unchanged,
and `getTotalVerifications` merely reads it. -/
theorem verifyContent_increments_total (st : SysState)
    (resp : Agent → Except String Response) (now : ℤ) (content userId : String)
    (verificationId : Option String) (freshId : String) :
    (verifyContent st resp now content userId verificationId freshId).2.totalVerifications
      = st.totalVerifications + 1 ∧
    (∀ now2 : ℤ, (cleanupOldVerifications st now2).totalVerifications = st.totalVerifications) ∧
    getTotalVerifications st = st.totalVerifications := by
  refine ⟨?_, fun now2 => rfl, rfl⟩
  unfold verifyContent
  dsimp only
  cases collectResults resp (selectAgents content) <;> rfl

/-! ### C1: duplicate session ids -/

/-- C1, counterexample.  Reusing the id "s1" of an already completed
session is not rejected: the call succeeds and the stored session record
for "s1" is overwritten. -/
theorem verifyContent_duplicate_session_accepted :
    ((verifyContent preState respOk 1000 "reused" "u2" (some "s1") "y").1.toOption ≠ none) ∧
    (verifyContent preState respOk 1000 "reused" "u2" (some "s1") "y").2.activeVerifications "s1"
      ≠ preState.activeVerifications "s1" := by
  decide

/-- C1 amended.  `verifyContent` performs no duplicate-session check at
all: the call's outcome and the resulting session record at the reused id
are independent of whatever session (running, completed, failed or none)
the store previously held under that id, and the record is unconditionally
overwritten with a fresh one for the new call. -/
theorem verifyContent_overwrites_session (st1 st2 : SysState)
    (resp : Agent → Except String Response) (now : ℤ) (content userId : String)
    (sessionId freshId : String) :
    (verifyContent st1 resp now content userId (some sessionId) freshId).1
      = (verifyContent st2 resp now content userId (some sessionId) freshId).1 ∧
    (verifyContent st1 resp now content userId (some sessionId) freshId).2.activeVerifications
        sessionId
      = (verifyContent st2 resp now content userId (some sessionId) freshId).2.activeVerifications
        sessionId ∧
    ∃ v, (verifyContent st1 resp now content userId (some sessionId) freshId).2.activeVerifications
          sessionId = some v ∧
        v.content = content ∧ v.userId = userId ∧ v.startTime = now := by
  unfold verifyContent
  dsimp only
  cases collectResults resp (selectAgents content) with
  | error e =>
      refine ⟨rfl, by simp [setSession], ?_⟩
      exact ⟨{ userId := userId, content := content, agents := selectAgents content,
               startTime := now, status := SessionStatus.failed, result := none,
               error := some e },
             by simp [setSession], rfl, rfl, rfl⟩
  | ok rs =>
      refine ⟨rfl, by simp [setSession], ?_⟩
      exact ⟨{ userId := userId, content := content, agents := selectAgents content,
               startTime := now, status := SessionStatus.completed,
               result := some { verificationId := sessionId, content := content,
                                agents := selectAgents content, agentResults := rs,
                                overallResult := calculateOverallResult rs },
               error := none },
             by simp [setSession], rfl, rfl, rfl⟩

/-! ### C7: all-or-nothing aggregation -/

/-- C7.  If any analyzer invocation for the selected agents raises, the
whole verification fails: the error propagates to the caller, the session
record transitions to `failed` with the error stored, and no overall
result is produced from the analyzers that succeeded. -/
theorem verifyContent_all_or_nothing (st : SysState)
    (resp : Agent → Except String Response) (now : ℤ) (content userId : String)
    (verificationId : Option String) (freshId : String)
    (h : ∃ a ∈ selectAgents content, ∃ e, resp a = Except.error e) :
    ∃ e, (verifyContent st resp now content userId verificationId freshId).1
        = Except.error e ∧
      (verifyContent st resp now content userId verificationId freshId).2.activeVerifications
          (verificationId.getD freshId)
        = some { userId := userId, content := content, agents := selectAgents content,
                 startTime := now, status := SessionStatus.failed, result := none,
                 error := some e } := by
  obtain ⟨a, ha, e, he⟩ := h
  obtain ⟨e2, he2⟩ := collectResults_error_of_mem resp _ a e ha he
  refine ⟨e2, ?_, ?_⟩
  · unfold verifyContent
    dsimp only
    rw [he2]
  · unfold verifyContent
    dsimp only
    rw [he2]
    simp [setSession]

/-- C7, witness: with the news analyzer raising "boom" on content that
selects the news + fact fallback pair, the session fails. -/
theorem verifyContent_all_or_nothing_witness :
    (∃ a ∈ selectAgents "hello", ∃ e, respFail a = Except.error e) ∧
    ∃ e, (verifyContent emptyState respFail 0 "hello" "u" none "f").1 = Except.error e ∧
      (verifyContent emptyState respFail 0 "hello" "u" none "f").2.activeVerifications "f"
        = some { userId := "u", content := "hello", agents := selectAgents "hello",
                 startTime := 0, status := SessionStatus.failed, result := none,
                 error := some e } :=
  ⟨⟨newsAgent, by decide, "boom", rfl⟩,
   verifyContent_all_or_nothing emptyState respFail 0 "hello" "u" none "f"
     ⟨newsAgent, by decide, "boom", rfl⟩⟩

/-! ### C9: completed sessions hold exactly the selected analyzers' results -/

/-- C9.  When `verifyContent` succeeds, the returned result carries exactly
one analyzer result per selected analyzer (same ids, same order), the
overall result is computed from that full set, and the stored completed
session record holds that result. -/
theorem verifyContent_completed_exact_results (st : SysState)
    (resp : Agent → Except String Response) (now : ℤ) (content userId : String)
    (verificationId : Option String) (freshId : String) (r : VerifResult)
    (h : (verifyContent st resp now content userId verificationId freshId).1 = Except.ok r) :
    r.agentResults.map (·.agent) = (selectAgents content).map (·.id) ∧
    r.overallResult = calculateOverallResult r.agentResults ∧
    (verifyContent st resp now content userId verificationId freshId).2.activeVerifications
        (verificationId.getD freshId)
      = some { userId := userId, content := content, agents := selectAgents content,
               startTime := now, status := SessionStatus.completed, result := some r,
               error := none } := by
  cases hc : collectResults resp (selectAgents content) with
  | error e =>
      exfalso
      unfold verifyContent at h
      dsimp only at h
      rw [hc] at h
      cases h
  | ok rs =>
      unfold verifyContent at h
      dsimp only at h
      rw [hc] at h
      dsimp only at h
      injection h with hr
      subst hr
      refine ⟨collectResults_ok_ids resp _ rs hc, rfl, ?_⟩
      unfold verifyContent
      dsimp only
      rw [hc]
      simp [setSession]

/-- The result the all-success oracle produces for content "hello". -/
def okResultHello : VerifResult :=
  { verificationId := "f", content := "hello", agents := selectAgents "hello",
    agentResults := [mkAgentResult newsAgent defaultResponse,
                     mkAgentResult factAgent defaultResponse],
    overallResult := calculateOverallResult
      [mkAgentResult newsAgent defaultResponse, mkAgentResult factAgent defaultResponse] }

/-- C9, witness at content "hello" under the all-success oracle. -/
theorem verifyContent_completed_exact_results_witness :
    okResultHello.agentResults.map (·.agent) = (selectAgents "hello").map (·.id) :=
  (verifyContent_completed_exact_results emptyState respOk 0 "hello" "u" none "f"
    okResultHello rfl).1

/-! ### C8: the retention sweep -/

/-- C8.  The cleanup sweep removes a stored session exactly when its
creation time is more than one hour (3 600 000 ms) before the sweep time,
regardless of the session's status. -/
theorem cleanup_retention (st : SysState) (now : ℤ) (id : String) (v : SessionRecord)
    (h : st.activeVerifications id = some v) :
    (cleanupOldVerifications st now).activeVerifications id
      = if now - v.startTime > 60 * 60 * 1000 then none else some v := by
  unfold cleanupOldVerifications
  dsimp only
  rw [h]
  dsimp only
  by_cases hlt : v.startTime < now - 60 * 60 * 1000
  · rw [if_pos hlt, if_pos (by omega)]
  · rw [if_neg hlt, if_neg (by omega)]

/-- A session created 59 minutes before the sweep instant 86 400 000. -/
def session59 : SessionRecord :=
  { userId := "u", content := "c", agents := selectAgents "c",
    startTime := 86400000 - 59 * 60 * 1000, status := SessionStatus.processing,
    result := none, error := none }

/-- A session created 61 minutes before the sweep instant 86 400 000. -/
def session61 : SessionRecord :=
  { userId := "u", content := "c", agents := selectAgents "c",
    startTime := 86400000 - 61 * 60 * 1000, status := SessionStatus.failed,
    result := none, error := some "boom" }

def retentionState : SysState :=
  { activeVerifications := fun id =>
      if id = "fresh" then some session59
      else if id = "stale" then some session61
      else none,
    totalVerifications := 2 }

/-- C8, witness: at sweep time, the 59-minute-old session survives and the
61-minute-old one is removed. -/
theorem cleanup_retention_witness :
    (cleanupOldVerifications retentionState 86400000).activeVerifications "fresh"
      = some session59 ∧
    (cleanupOldVerifications retentionState 86400000).activeVerifications "stale" = none := by
  constructor
  · rw [cleanup_retention retentionState 86400000 "fresh" session59 rfl]
    rw [if_neg (by decide)]
  · rw [cleanup_retention retentionState 86400000 "stale" session61 rfl]
    rw [if_pos (by decide)]

/-! ### C4: invalid content at the verify boundary -/

/-- C4.  Empty or non-string `content` passed to the verify endpoint is
rejected with the 400 validation message before any state mutation: the
returned state is the input state, so no session record is created or
modified and the total-verifications counter is unchanged. -/
theorem apiVerify_invalid_content_rejected (st : SysState) (validate : String → Bool)
    (resp : Agent → Except String Response) (now : ℤ) (content : Option JsValue)
    (userId : String) (sessionId : Option String) (freshId : String)
    (h : content = none ∨ content = some JsValue.nonString
        ∨ content = some (JsValue.str "")) :
    apiVerify st validate resp now content userId sessionId freshId
      = (ApiResponse.badRequest "Content is required and must be a string", st) := by
  rcases h with h | h | h <;> subst h <;> simp [apiVerify]

/-- C4, witness at the empty string. -/
theorem apiVerify_invalid_content_rejected_witness :
    apiVerify emptyState (fun _ => true) respOk 0 (some (JsValue.str "")) "web-user" none "f"
      = (ApiResponse.badRequest "Content is required and must be a string", emptyState) :=
  apiVerify_invalid_content_rejected emptyState (fun _ => true) respOk 0
    (some (JsValue.str "")) "web-user" none "f" (Or.inr (Or.inr rfl))

end TruthGuard
